import Mathlib

/-
  Verification development for the bitcoin-ai-Agent chat-relay service.
  The definitions below are a shallow embedding of `src/index.js` (the
  variant the specification's line references point at): the tool
  functions, the offline responder with its regex-based intent parsing,
  the conversation orchestrator (`runAgent`), and the HTTP chat handler.

  Modelling conventions:
  - JavaScript numbers are modelled as exact rationals (ℚ).  Every value a
    claim exercises is either an integer below 2^53 or a small decimal, on
    which IEEE doubles are exact, so no rounding behaviour is lost.
  - `Math.sqrt` only occurs in the loop bound `i <= Math.sqrt(num)`, which
    for a nonneg rational num and integer i is equivalent to `i*i <= num`;
    the loop is embedded with that bound.
  - JavaScript `%` on a positive dividend and positive divisor computes
    `x - i * trunc(x / i) = x - i * floor(x / i)`; the embedding uses the
    floor form.
  - The network (coingecko fetch) and the remote Groq provider are
    modelled as explicit oracle/provider function parameters; a `none` /
    `.error` outcome models a thrown exception (fetch rejection or non-ok
    response; provider failure or malformed response shape).
  - The process-global `History` array is modelled by explicit state
    passing: stateful functions take the current transcript and return
    the new one, in both success and failure outcomes (the JS code never
    rolls pushes back when an exception is thrown later).
-/

namespace BtcAgent

/-! ## Characters, digits and number rendering -/

/-- Decimal digit character for a value below 10. -/
def digitChar (n : ℕ) : Char := Char.ofNat (48 + n)

/-- Fuel-driven accumulator producing the decimal digits of a natural number. -/
def natToDigitsAux : ℕ → ℕ → List Char → List Char
  | 0, _, acc => acc
  | fuel + 1, n, acc =>
    if n < 10 then digitChar n :: acc
    else natToDigitsAux fuel (n / 10) (digitChar (n % 10) :: acc)

/-- Decimal string of a natural number. -/
def natToString (n : ℕ) : String := (natToDigitsAux (n + 1) n []).asString

/-- Decimal string of an integer. -/
def intToString (i : ℤ) : String :=
  if i < 0 then "-" ++ natToString i.natAbs else natToString i.toNat

/-- Left-pad a string with zeros up to width `k`. -/
def padLeftZeros (k : ℕ) (s : String) : String :=
  if s.length < k then (List.replicate (k - s.length) '0').asString ++ s else s

/-- Smallest exponent `k ≤ 39` with `d ∣ 10 ^ k`, when one exists. -/
def pow10Exp (d : ℕ) : Option ℕ := (List.range 40).find? (fun k => decide (d ∣ 10 ^ k))

/-- Rendering of a rational as ECMAScript `ToString` renders the
corresponding number: integers print without a decimal point, finite
decimals print their (trailing-zero-free) decimal expansion.  Values whose
denominator is not a power of ten never arise from the embedded parsers;
for totality they render as a fraction. -/
def ratToString (q : ℚ) : String :=
  if q.den = 1 then intToString q.num
  else
    match pow10Exp q.den with
    | some k =>
      let sign := if q.num < 0 then "-" else ""
      let n := q.num.natAbs
      let ip := n / q.den
      let fr := n % q.den * 10 ^ k / q.den
      sign ++ natToString ip ++ "." ++ padLeftZeros k (natToString fr)
    | none => intToString q.num ++ "/" ++ natToString q.den

/-- `String.prototype.toLowerCase` (ASCII range; the intent keywords are ASCII). -/
def toLowerStr (s : String) : String := (s.toList.map Char.toLower).asString

/-- `String.prototype.toUpperCase` (ASCII range). -/
def toUpperStr (s : String) : String := (s.toList.map Char.toUpper).asString

/-- Substring occurrence over char lists, `String.prototype.includes`. -/
def containsSub (hay needle : List Char) : Bool :=
  match hay with
  | [] => needle.isEmpty
  | _ :: t => needle.isPrefixOf hay || containsSub t needle

/-- `hay.includes(needle)` on strings. -/
def containsStr (hay needle : String) : Bool := containsSub hay.toList needle.toList

/-! ## The regex fragments used by the offline responder

The three regexes of `src/index.js` are deterministic on their alphabets
(each greedy sub-pattern is followed by a pattern that cannot match the
characters the sub-pattern consumes), so maximal-munch matching tried at
every start position from the left reproduces the JavaScript leftmost
match exactly. -/

/-- Character class `\d`. -/
def isDigitCh (c : Char) : Bool := c.isDigit

/-- Character class `\s` (the claims only exercise ASCII whitespace). -/
def isSpaceCh (c : Char) : Bool := c.isWhitespace

/-- Character class `[a-z0-9-]`. -/
def isCoinCh (c : Char) : Bool :=
  (decide ('a' ≤ c) && decide (c ≤ 'z')) || c.isDigit || decide (c = '-')

/-- Drop a literal from the front of the input, or fail. -/
def stripLit : List Char → List Char → Option (List Char)
  | [], cs => some cs
  | _ :: _, [] => none
  | p :: ps, c :: cs => if c = p then stripLit ps cs else none

/-- Try a matcher at every start position from the left (JS regex scan). -/
def scanFirst {α : Type} (f : List Char → Option α) : List Char → Option α
  | [] => none
  | c :: rest =>
    match f (c :: rest) with
    | some a => some a
    | none => scanFirst f rest

/-- Match `-?\d+(?:\.\d+)?` at the start of the input, returning the
matched characters and the rest. -/
def matchNumber (cs : List Char) : Option (List Char × List Char) :=
  let signAndRest : List Char × List Char :=
    match cs with
    | '-' :: rest => (['-'], rest)
    | _ => ([], cs)
  let sign := signAndRest.1
  let cs1 := signAndRest.2
  let ds := cs1.takeWhile isDigitCh
  let cs2 := cs1.dropWhile isDigitCh
  if ds.isEmpty then none
  else
    match cs2 with
    | '.' :: cs3 =>
      let fs := cs3.takeWhile isDigitCh
      if fs.isEmpty then some (sign ++ ds, cs2)
      else some (sign ++ ds ++ '.' :: fs, cs3.dropWhile isDigitCh)
    | _ => some (sign ++ ds, cs2)

/-- Value of a list of decimal digit characters. -/
def digitsToNat (ds : List Char) : ℕ := ds.foldl (fun a c => 10 * a + (c.toNat - 48)) 0

/-- `Number(s)` for an unsigned decimal literal `\d+(\.\d+)?`. -/
def parseUnsigned (cs : List Char) : ℚ :=
  let ip := cs.takeWhile isDigitCh
  let rest := cs.dropWhile isDigitCh
  match rest with
  | '.' :: fr => (digitsToNat ip : ℚ) + (digitsToNat fr : ℚ) / (10 : ℚ) ^ fr.length
  | _ => (digitsToNat ip : ℚ)

/-- `Number(s)` for a matched `-?\d+(\.\d+)?` literal. -/
def parseJsNumber (cs : List Char) : ℚ :=
  match cs with
  | '-' :: rest => -(parseUnsigned rest)
  | _ => parseUnsigned cs

/-- Match the sum regex `(-?\d+(?:\.\d+)?)\s*\+\s*(-?\d+(?:\.\d+)?)` at the
start of the input and convert both groups with `Number`. -/
def sumMatchAt (cs : List Char) : Option (ℚ × ℚ) := do
  let (g1, r1) ← matchNumber cs
  match r1.dropWhile isSpaceCh with
  | '+' :: r3 =>
    let (g2, _) ← matchNumber (r3.dropWhile isSpaceCh)
    pure (parseJsNumber g1, parseJsNumber g2)
  | _ => none

/-- `parseTwoNumbersForSum` of `src/index.js` (lines 94-99): first match of
the sum regex anywhere in the text, as the pair `{num1, num2}`. -/
def parseTwoNumbersForSum (text : String) : Option (ℚ × ℚ) :=
  scanFirst sumMatchAt text.toList

/-- `parseNumberForPrime` of `src/index.js` (lines 101-106): first match of
`(-?\d+(?:\.\d+)?)` anywhere in the text, as `{number}`. -/
def parseNumberForPrime (text : String) : Option ℚ :=
  scanFirst (fun cs => (matchNumber cs).map (fun p => parseJsNumber p.1)) text.toList

/-- Match `price\s+of\s+([a-z0-9-]+)` at the start of the input. -/
def priceOfMatchAt (cs : List Char) : Option String :=
  match stripLit "price".toList cs with
  | none => none
  | some r1 =>
    if (r1.takeWhile isSpaceCh).isEmpty then none
    else
      match stripLit "of".toList (r1.dropWhile isSpaceCh) with
      | none => none
      | some r2 =>
        if (r2.takeWhile isSpaceCh).isEmpty then none
        else
          let g := ((r2.dropWhile isSpaceCh).takeWhile isCoinCh)
          if g.isEmpty then none else some g.asString

/-- Match `([a-z0-9-]+)\s+price` at the start of the input. -/
def coinPriceMatchAt (cs : List Char) : Option String :=
  let g := cs.takeWhile isCoinCh
  if g.isEmpty then none
  else
    let r1 := cs.dropWhile isCoinCh
    if (r1.takeWhile isSpaceCh).isEmpty then none
    else
      match stripLit "price".toList (r1.dropWhile isSpaceCh) with
      | some _ => some g.asString
      | none => none

/-- `parseCoinForPrice` of `src/index.js` (lines 108-116): lowercase the
text, pick bitcoin then ethereum on keyword occurrence, otherwise try the
two positional regexes in order. -/
def parseCoinForPrice (text : String) : Option String :=
  let t := text.toList.map Char.toLower
  if containsSub t "bitcoin".toList || containsSub t "btc".toList then some "bitcoin"
  else if containsSub t "ethereum".toList || containsSub t "eth".toList then some "ethereum"
  else
    match scanFirst priceOfMatchAt t with
    | some c => some c
    | none => scanFirst coinPriceMatchAt t

/-! ## JavaScript values

A small model of the JSON-like values the service moves around: request
bodies, tool arguments delivered by the provider, and the price payload.
`vNaN` stands for the number NaN, `vUndefined` for `undefined`. -/

mutual

inductive JsValue : Type where
  | vNull : JsValue
  | vUndefined : JsValue
  | vNaN : JsValue
  | vBool : Bool → JsValue
  | vNum : ℚ → JsValue
  | vStr : String → JsValue
  | vObj : JsFields → JsValue

inductive JsFields : Type where
  | nil : JsFields
  | cons : String → JsValue → JsFields → JsFields

end

/-- First binding of a key in an object's field list. -/
def findField : JsFields → String → Option JsValue
  | .nil, _ => none
  | .cons k v r, key => if k = key then some v else findField r key

/-- Property access `v?.[key]` (undefined on non-objects and absent keys,
as optional chaining and plain access on defined receivers give). -/
def jsGet : JsValue → String → JsValue
  | .vObj fs, key =>
    match findField fs key with
    | some v => v
    | none => .vUndefined
  | _, _ => .vUndefined

/-- JavaScript truthiness. -/
def jsTruthy : JsValue → Bool
  | .vUndefined => false
  | .vNull => false
  | .vNaN => false
  | .vBool b => b
  | .vNum q => !(decide (q = 0))
  | .vStr s => !(s == "")
  | .vObj _ => true

/-- `typeof v === "string"`. -/
def jsIsString : JsValue → Bool
  | .vStr _ => true
  | _ => false

/-- The carried string of a string value (only read behind `jsIsString`). -/
def jsStrVal : JsValue → String
  | .vStr s => s
  | _ => ""

/-- `v == null` (loose equality with null: null and undefined only). -/
def jsIsNullish : JsValue → Bool
  | .vNull => true
  | .vUndefined => true
  | _ => false

/-- Template-literal rendering `${v}` (ECMAScript ToString). -/
def jsToDisplayString : JsValue → String
  | .vStr s => s
  | .vNum q => ratToString q
  | .vBool b => if b then "true" else "false"
  | .vNull => "null"
  | .vUndefined => "undefined"
  | .vNaN => "NaN"
  | .vObj _ => "[object Object]"

/-- The `+` operator as the `sum` tool meets it: number addition; string
concatenation; the registry schema declares numbers, so the remaining
coercion cases (which the claims never exercise) collapse to NaN. -/
def jsAdd : JsValue → JsValue → JsValue
  | .vNum a, .vNum b => .vNum (a + b)
  | .vStr a, .vStr b => .vStr (a ++ b)
  | _, _ => .vNaN

/-- Escape a character for a JSON string literal. -/
def jsonEscapeChar (c : Char) : String :=
  if c = '"' then "\\\"" else if c = '\\' then "\\\\" else String.singleton c

/-- Escape a string for a JSON string literal. -/
def jsonEscape (s : String) : String := String.join (s.toList.map jsonEscapeChar)

mutual

/-- `JSON.stringify` on the modelled values (NaN and undefined serialize
as JSON null; undefined only arises outside the claims' paths). -/
def jsonStringify : JsValue → String
  | .vNull => "null"
  | .vUndefined => "null"
  | .vNaN => "null"
  | .vBool b => if b then "true" else "false"
  | .vNum q => ratToString q
  | .vStr s => "\"" ++ jsonEscape s ++ "\""
  | .vObj fs => "\x7b" ++ jsonFieldsStr fs ++ "\x7d"

/-- Comma-joined `"key":value` renderings of an object's fields. -/
def jsonFieldsStr : JsFields → String
  | .nil => ""
  | .cons k v .nil => "\"" ++ jsonEscape k ++ "\":" ++ jsonStringify v
  | .cons k v (.cons k2 v2 rest) =>
    "\"" ++ jsonEscape k ++ "\":" ++ jsonStringify v ++ "," ++
      jsonFieldsStr (.cons k2 v2 rest)

end

/-! ## The three local tools (`src/index.js` lines 72-92) -/

/-- `sum(num1, num2)` (lines 72-74). -/
def sum (num1 num2 : ℚ) : ℚ := num1 + num2

/-- The trial-division loop of `prime` (lines 78-80): for i from `i`
upward while `i <= Math.sqrt(num)` (equivalently `i*i <= num`), return
false on `num % i === 0`; `fuel` bounds the recursion and is chosen in
`prime` large enough that the loop always exits through its condition. -/
def primeLoop (num : ℚ) : ℕ → ℕ → Bool
  | _, 0 => true
  | i, fuel + 1 =>
    if (i : ℚ) * i ≤ num then
      if num - (i : ℚ) * ⌊num / (i : ℚ)⌋ = 0 then false
      else primeLoop num (i + 1) fuel
    else true

/-- `prime(num)` (lines 76-82): false below 2, otherwise trial division by
every integer i with `2 ≤ i ≤ Math.sqrt(num)`. -/
def prime (num : ℚ) : Bool :=
  if num < 2 then false
  else primeLoop num 2 (num.num.toNat + 1)

/-- Environment oracle for the coingecko fetch: `none` models a rejected
fetch or a non-ok status (both surface as a thrown error in
`getcryptoprice`), `some payload` the parsed JSON body. -/
abbrev PriceOracle := String → Option JsValue

/-- `getcryptoprice(coin)` (lines 84-92): fetch the simple-price endpoint,
throw on failure, return the parsed JSON payload. -/
def getcryptoprice (oracle : PriceOracle) (coin : String) : Except String JsValue :=
  match oracle coin with
  | none => .error ("Failed to fetch price for " ++ coin)
  | some payload => .ok payload

/-! ## The offline responder (`src/index.js` lines 118-165) -/

/-- A tool call surfaced to the HTTP layer: `{name, args}`. -/
structure ToolCallInfo : Type where
  name : String
  args : JsValue

/-- `runOfflineDemo`'s result shape `{text, toolCall}`. -/
structure DemoResult : Type where
  text : String
  toolCall : Option ToolCallInfo

/-- The fixed no-intent help text (lines 155-164). -/
def helpText : String :=
  "Offline demo mode is active because GROQ_API_KEY is not set.\n" ++
  "Try:\n" ++
  "- Calculate 1234 + 5678\n" ++
  "- Is 9973 prime?\n" ++
  "- Bitcoin price\n" ++
  "\nTo enable full AI chat, add GROQ_API_KEY to a .env file and restart the server."

/-- The no-intent response (lines 155-164). -/
def helpResult : DemoResult := ⟨helpText, none⟩

/-- The sum-intent response (lines 122-128). -/
def sumResponse (num1 num2 : ℚ) : DemoResult :=
  ⟨"Result: " ++ ratToString num1 ++ " + " ++ ratToString num2 ++ " = " ++
      ratToString (sum num1 num2),
   some ⟨"sum", .vObj (.cons "num1" (.vNum num1) (.cons "num2" (.vNum num2) .nil))⟩⟩

/-- The prime-intent response (lines 130-139). -/
def primeResponse (number : ℚ) : DemoResult :=
  ⟨ratToString number ++ " is " ++ (if prime number then "" else "not ") ++
      "a prime number.",
   some ⟨"check_prime_number", .vObj (.cons "number" (.vNum number) .nil)⟩⟩

/-- The price-intent response once the fetch succeeded (lines 144-151):
read `payload?.[coin]?.usd`, render the price line or the
missing-usd message. -/
def priceResponse (coin : String) (payload : JsValue) : DemoResult :=
  let usd := jsGet (jsGet payload coin) "usd"
  ⟨if jsIsNullish usd then
      "I couldn\x27t find a USD price for \"" ++ coin ++ "\". Try: bitcoin, ethereum."
    else toUpperStr coin ++ " price: $" ++ jsToDisplayString usd ++ " USD",
   some ⟨"get_crypto_price", .vObj (.cons "coin" (.vStr coin) .nil)⟩⟩

/-- The price lookup of the price branch (lines 144-151): the fetch's
thrown error propagates out of `runOfflineDemo`. -/
def priceLookup (oracle : PriceOracle) (coin : String) : Except String DemoResult :=
  match getcryptoprice oracle coin with
  | .error e => .error e
  | .ok payload => .ok (priceResponse coin payload)

/-- `runOfflineDemo(userMessage)` (lines 118-165): sum intent first, then
prime, then price, then the help text. -/
def runOfflineDemo (oracle : PriceOracle) (userMessage : String) :
    Except String DemoResult :=
  let lower := toLowerStr userMessage
  let priceStep : Except String DemoResult :=
    if containsStr lower "price" || containsStr lower "crypto" ||
        containsStr lower "bitcoin" || containsStr lower "ethereum" then
      match parseCoinForPrice userMessage with
      | some coin => priceLookup oracle coin
      | none => .ok helpResult
    else .ok helpResult
  match parseTwoNumbersForSum userMessage with
  | some (n1, n2) => .ok (sumResponse n1 n2)
  | none =>
    if containsStr lower "prime" then
      match parseNumberForPrime userMessage with
      | some n => .ok (primeResponse n)
      | none => priceStep
    else priceStep

/-! ## Transcript and orchestrator (`src/index.js` lines 62-69, 217-291) -/

/-- Message roles. -/
inductive Role : Type where
  | system : Role
  | user : Role
  | assistant : Role
  | tool : Role
deriving DecidableEq

/-- A provider tool-invocation request: `{id, function: {name, arguments}}`;
the JSON argument payload is modelled already parsed (a `JSON.parse`
failure on a malformed payload would surface like any other thrown error
on the tool path). -/
structure ToolCallReq : Type where
  id : String
  name : String
  args : JsValue

/-- A transcript entry (system/user/assistant/tool message). -/
structure Message : Type where
  role : Role
  content : Option String := none
  tool_call_id : Option String := none
  tool_calls : List ToolCallReq := []

/-- The fixed system instruction seeding the transcript (lines 62-69). -/
def systemMessage : Message :=
  { role := .system,
    content := some
      ("You are an AI robot agent that can optionally call tools to do math, check if a number is prime, or fetch crypto prices. " ++
       "When you use tools, clearly explain what you did and include the result in natural language.") }

/-- The initial in-memory chat history (lines 62-69). -/
def History : List Message := [systemMessage]

/-- A first/second round-trip response from the remote provider:
`choices[0].message`, with its optional content and (possibly empty) list
of tool invocation requests. -/
structure AssistantMsg : Type where
  content : Option String
  tool_calls : List ToolCallReq := []

/-- The remote completion provider, modelled as a function of the
submitted transcript; `.error` models a failed call or a response of
unexpected shape. -/
abbrev Provider := List Message → Except String AssistantMsg

/-- Truthiness of an optional content string (`if (message?.content)`). -/
def contentTruthy : Option String → Bool
  | none => false
  | some s => !(s == "")

/-- The user message pushed at the start of `runAgent` (line 234). -/
def mkUserMessage (u : String) : Message := { role := .user, content := some u }

/-- The provider's message pushed verbatim (line 260). -/
def assistantOfProvider (m : AssistantMsg) : Message :=
  { role := .assistant, content := m.content, tool_calls := m.tool_calls }

/-- The tool-result message pushed after executing a tool (lines 263-267). -/
def mkToolMessage (callId resultJson : String) : Message :=
  { role := .tool, tool_call_id := some callId, content := some resultJson }

/-- A plain assistant reply pushed to the history (lines 278, 287). -/
def mkPlainAssistant (c : Option String) : Message := { role := .assistant, content := c }

/-- `availableTools[name](args)` (lines 218-222): dispatch by provider-
supplied name; an unknown name makes `tool` undefined and the call throw.
The prime tool's argument is read as a number; a missing argument
(`undefined`) fails every comparison in `prime` and the loop bound, so
the JS function returns true on it, as does `prime` on no iterations —
modelled through the NaN-free rational embedding by the `vNum` case only,
the only case the registry schema admits. -/
def execTool (oracle : PriceOracle) (name : String) (args : JsValue) :
    Except String JsValue :=
  match name with
  | "sum" => .ok (jsAdd (jsGet args "num1") (jsGet args "num2"))
  | "check_prime_number" =>
    match jsGet args "number" with
    | .vNum q => .ok (.vBool (prime q))
    | _ => .ok (.vBool true)
  | "get_crypto_price" => getcryptoprice oracle (jsToDisplayString (jsGet args "coin"))
  | _ => .error "TypeError: tool is not a function"

/-- The result shape `runAgent` hands back: `{text, toolCall}`. -/
structure AgentResult : Type where
  text : Option String
  toolCall : Option ToolCallInfo

/-- `runAgent(userMessage)` (lines 225-291), with the process-global
`History` passed and returned explicitly.  The returned transcript
reflects every push performed before a failure (the JS code catches
nothing here, so pushes survive a later throw).  Model selection and the
`tools`/`tool_choice` request options are provider-call configuration
carried by the provider collaborator. -/
def runAgent (groqConfigured : Bool) (provider : Provider) (oracle : PriceOracle)
    (hist : List Message) (userMessage : String) :
    Except String AgentResult × List Message :=
  if groqConfigured then
    let hist1 := hist ++ [mkUserMessage userMessage]
    match provider hist1 with
    | .error e => (.error e, hist1)
    | .ok m =>
      match m.tool_calls with
      | [] =>
        (.ok ⟨m.content, none⟩,
         if contentTruthy m.content then hist1 ++ [mkPlainAssistant m.content] else hist1)
      | c :: _ =>
        match execTool oracle c.name c.args with
        | .error e => (.error e, hist1)
        | .ok result =>
          let hist3 := hist1 ++ [assistantOfProvider m,
            mkToolMessage c.id (jsonStringify result)]
          match provider hist3 with
          | .error e => (.error e, hist3)
          | .ok fm =>
            (.ok ⟨fm.content, some ⟨c.name, c.args⟩⟩,
             if contentTruthy fm.content then hist3 ++ [mkPlainAssistant fm.content]
             else hist3)
  else (.error "GROQ_API_KEY is not configured on the server.", hist)

/-! ## The HTTP chat handler (`src/index.js` lines 294-344) -/

/-- The handler's reply at the boundary the core produces: status code and
the JSON body's fields (`response`/`toolCall` on 200, `error` otherwise). -/
structure HttpReply : Type where
  status : ℕ
  response : Option String := none
  toolCall : Option ToolCallInfo := none
  error : Option String := none

/-- The fallback annotation appended to the offline text (lines 325-327). -/
def fallbackNote : String :=
  "\n\n[Note: Groq API call failed; you are seeing the offline/tool-based fallback response instead.]"

/-- The 500 message of the double-failure path (lines 332-338):
`err.message` when it is a nonempty string, a fixed text otherwise. -/
def safeErrMessage (e : String) : String :=
  if e = "" then "Internal server error while processing the AI request." else e

/-- `chatHandler(req, res)` (lines 294-341) with the transcript passed and
returned explicitly: validate the message, serve offline mode without a
key, otherwise run the agent and fall back to the offline responder on
any failure; 500 only when the fallback itself throws. -/
def chatHandler (groqConfigured : Bool) (provider : Provider) (oracle : PriceOracle)
    (hist : List Message) (body : JsValue) : HttpReply × List Message :=
  let message := jsGet (if jsTruthy body then body else .vObj .nil) "message"
  if !jsTruthy message || !jsIsString message then
    ({ status := 400, error := some "Missing \x27message\x27 field in request body." }, hist)
  else
    let msg := jsStrVal message
    if groqConfigured then
      match runAgent groqConfigured provider oracle hist msg with
      | (.ok result, hist2) =>
        ({ status := 200, response := result.text, toolCall := result.toolCall }, hist2)
      | (.error e, hist2) =>
        match runOfflineDemo oracle msg with
        | .ok demo =>
          ({ status := 200, response := some (demo.text ++ fallbackNote),
             toolCall := demo.toolCall }, hist2)
        | .error _ =>
          ({ status := 500, error := some (safeErrMessage e) }, hist2)
    else
      match runOfflineDemo oracle msg with
      | .ok demo =>
        ({ status := 200, response := some demo.text, toolCall := demo.toolCall }, hist)
      | .error _ => ({ status := 500, error := some "Offline demo failed." }, hist)

/-- The POST routing (lines 343-344): `/chat` and `/api/chat` are both
bound to the same `chatHandler`. -/
def handlePost (path : String) (groqConfigured : Bool) (provider : Provider)
    (oracle : PriceOracle) (hist : List Message) (body : JsValue) :
    Option (HttpReply × List Message) :=
  if path = "/chat" || path = "/api/chat" then
    some (chatHandler groqConfigured provider oracle hist body)
  else none

/-- A sequence of POST-chat requests applied to a transcript (the only
code mutating `History`). -/
def applyRequests (reqs : List (Bool × Provider × PriceOracle × JsValue))
    (hist : List Message) : List Message :=
  reqs.foldl (fun h r => (chatHandler r.1 r.2.1 r.2.2.1 h r.2.2.2).2) hist

/-! ## Concrete fixtures used by the witnesses -/

/-- An oracle whose fetch always fails. -/
def oracleNone : PriceOracle := fun _ => none

/-- A coingecko payload carrying a usd price for bitcoin. -/
def btcPayload (p : ℚ) : JsValue :=
  .vObj (.cons "bitcoin" (.vObj (.cons "usd" (.vNum p) .nil)) .nil)

/-- A coingecko payload carrying a usd price for ethereum. -/
def ethPayload : JsValue :=
  .vObj (.cons "ethereum" (.vObj (.cons "usd" (.vNum ((4242 : ℕ) : ℚ)) .nil)) .nil)

/-- An oracle that knows the bitcoin price. -/
def oracleBtc : PriceOracle :=
  fun c => if c = "bitcoin" then some (btcPayload ((65321 : ℕ) : ℚ)) else none

/-- An oracle that knows the ethereum price. -/
def oracleEth : PriceOracle := fun c => if c = "ethereum" then some ethPayload else none

/-- A request body `{"message": s}`. -/
def mkBody (s : String) : JsValue := .vObj (.cons "message" (.vStr s) .nil)

/-- Arguments `{"coin": "bitcoin"}` of a crypto-price tool invocation. -/
def cryptoArgs : JsValue := .vObj (.cons "coin" (.vStr "bitcoin") .nil)

/-- A provider tool-invocation request for the bitcoin price. -/
def toolReqBtc : ToolCallReq := ⟨"call_1", "get_crypto_price", cryptoArgs⟩

/-- A first-round provider message requesting the bitcoin-price tool. -/
def toolAsstMsg : AssistantMsg := ⟨none, [toolReqBtc]⟩

/-- A provider that requests the bitcoin-price tool on the first round and
answers with content on the second. -/
def providerTool : Provider := fun msgs =>
  if msgs.length = 2 then .ok toolAsstMsg else .ok ⟨some "Bitcoin is at $65321.", []⟩

/-- A provider that requests the bitcoin-price tool on the first round and
fails on the second. -/
def providerToolThenFail : Provider := fun msgs =>
  if msgs.length = 2 then .ok toolAsstMsg else .error "second call failed"

/-- A provider whose calls always fail. -/
def providerFail : Provider := fun _ => .error "boom"

/-- The non-integer rational 5/2 in reduced form. -/
def qFiveHalves : ℚ := Rat.mk' 5 2 (by norm_num) (by decide)

/-! ## Helper lemmas: the trial-division loop -/

/-- With enough fuel to reach the loop's exit condition, `primeLoop` is
true exactly when no divisor candidate in range has remainder zero. -/
theorem primeLoop_true_iff (num : ℚ) :
    ∀ fuel i : ℕ,
      (∀ j : ℕ, i ≤ j → (j : ℚ) * j ≤ num → j < i + fuel) →
      (primeLoop num i fuel = true ↔
        ∀ j : ℕ, i ≤ j → (j : ℚ) * j ≤ num →
          ¬(num - (j : ℚ) * ⌊num / (j : ℚ)⌋ = 0)) := by
  intro fuel
  induction fuel with
  | zero =>
    intro i hb
    simp only [primeLoop]
    constructor
    · intro _ j hij hj2
      exact absurd (hb j hij hj2) (by omega)
    · intro _
      trivial
  | succ fuel ih =>
    intro i hb
    by_cases hle : (i : ℚ) * i ≤ num
    · by_cases hmod : num - (i : ℚ) * ⌊num / (i : ℚ)⌋ = 0
      · simp only [primeLoop, if_pos hle, if_pos hmod]
        constructor
        · intro h
          exact absurd h (by simp)
        · intro hall
          exact absurd hmod (hall i le_rfl hle)
      · have hb2 : ∀ j : ℕ, i + 1 ≤ j → (j : ℚ) * j ≤ num → j < i + 1 + fuel := by
          intro j h1 h2
          have := hb j (by omega) h2
          omega
        simp only [primeLoop, if_pos hle, if_neg hmod]
        rw [ih (i + 1) hb2]
        constructor
        · intro h j hij hj2
          rcases Nat.eq_or_lt_of_le hij with h0 | h0
          · subst h0
            exact hmod
          · exact h j (by omega) hj2
        · intro h j hij hj2
          exact h j (by omega) hj2
    · simp only [primeLoop, if_neg hle]
      constructor
      · intro _ j hij hj2
        exfalso
        apply hle
        have hji : (i : ℚ) ≤ (j : ℚ) := by exact_mod_cast hij
        have h0i : (0 : ℚ) ≤ (i : ℚ) := by positivity
        calc (i : ℚ) * i ≤ (j : ℚ) * j := mul_le_mul hji hji h0i (le_trans h0i hji)
          _ ≤ num := hj2
      · intro _
        trivial

/-- The JS remainder test `n % j === 0` on a natural dividend agrees with
divisibility. -/
theorem sub_floor_eq_zero_iff_dvd (n j : ℕ) (hj : j ≠ 0) :
    ((n : ℚ) - (j : ℚ) * ⌊(n : ℚ) / (j : ℚ)⌋ = 0) ↔ j ∣ n := by
  have hfl : ⌊(n : ℚ) / (j : ℚ)⌋ = (n : ℤ) / (j : ℤ) := by
    have h := Rat.floor_intCast_div_natCast (n : ℤ) j
    rw [Int.cast_natCast] at h
    exact h
  rw [hfl]
  constructor
  · intro h
    have h2 : (n : ℚ) = (j : ℚ) * (((n : ℤ) / (j : ℤ) : ℤ) : ℚ) := by
      have := sub_eq_zero.mp h
      exact this
    have h3 : (n : ℤ) = (j : ℤ) * ((n : ℤ) / (j : ℤ)) := by exact_mod_cast h2
    exact Int.natCast_dvd_natCast.mp ⟨_, h3⟩
  · rintro ⟨c, rfl⟩
    have hjz : (j : ℤ) ≠ 0 := by exact_mod_cast hj
    have hdiv : ((j * c : ℕ) : ℤ) / (j : ℤ) = (c : ℤ) := by
      push_cast
      exact Int.mul_ediv_cancel_left _ hjz
    rw [hdiv]
    push_cast
    ring

/-- A divisor candidate passing the square bound is below `n + 1`. -/
theorem lt_succ_of_sq_le (j n : ℕ) (h1 : 2 ≤ j) (h2 : j * j ≤ n) : j < n + 1 := by
  have h3 : j ≤ j * j := Nat.le_mul_of_pos_left j (by omega)
  omega

/-- `prime` on a natural number at least 2 decides exactly the absence of
a divisor between 2 and the integer square root. -/
theorem prime_natCast_eq_true_iff (n : ℕ) (h2 : 2 ≤ n) :
    prime (n : ℚ) = true ↔ ∀ j : ℕ, 2 ≤ j → j ≤ Nat.sqrt n → ¬ j ∣ n := by
  have hn2 : ¬ ((n : ℚ) < 2) := by
    rw [not_lt]
    exact_mod_cast h2
  have hnum : ((n : ℚ)).num.toNat + 1 = n + 1 := by
    rw [Rat.num_natCast, Int.toNat_natCast]
  rw [prime, if_neg hn2, hnum]
  have hfuel : ∀ j : ℕ, 2 ≤ j → (j : ℚ) * j ≤ (n : ℚ) → j < 2 + (n + 1) := by
    intro j hj hj2
    have hq : j * j ≤ n := by exact_mod_cast hj2
    have := lt_succ_of_sq_le j n hj hq
    omega
  rw [primeLoop_true_iff (n : ℚ) (n + 1) 2 hfuel]
  constructor
  · intro h j hj hsq
    have hsq2 : j * j ≤ n := Nat.le_sqrt.mp hsq
    have hcast : (j : ℚ) * j ≤ (n : ℚ) := by exact_mod_cast hsq2
    have hrem := h j hj hcast
    intro hdvd
    exact hrem ((sub_floor_eq_zero_iff_dvd n j (by omega)).mpr hdvd)
  · intro h j hj hsq
    have hsq2 : j * j ≤ n := by exact_mod_cast hsq
    have hdvd := h j hj (Nat.le_sqrt.mpr hsq2)
    intro hzero
    exact hdvd ((sub_floor_eq_zero_iff_dvd n j (by omega)).mp hzero)

/-- The square-root bound restated with an explicit numeric bound, so that
concrete instances are decidable by evaluation. -/
theorem prime_natCast_eq_true_iff_bounded (n : ℕ) (h2 : 2 ≤ n) :
    prime (n : ℚ) = true ↔ ∀ j : ℕ, j < n + 1 → 2 ≤ j → j * j ≤ n → ¬ j ∣ n := by
  rw [prime_natCast_eq_true_iff n h2]
  constructor
  · intro h j _ h1 hsq
    exact h j h1 (Nat.le_sqrt.mpr hsq)
  · intro h j h1 hsq
    have hsq2 : j * j ≤ n := Nat.le_sqrt.mp hsq
    exact h j (lt_succ_of_sq_le j n h1 hsq2) h1 hsq2

/-- Claim C3: the primality checker returns false for every input below 2;
for n ≥ 2 it decides exactly the absence of a trial divisor between 2 and
the integer square root of n; it returns true on 2, 3, 5, 7, 11, 13 and
false on 4, 6, 8, 9, 10, 12. -/
theorem claim3_check_prime_spec :
    (∀ q : ℚ, q < 2 → prime q = false)
    ∧ (∀ n : ℕ, 2 ≤ n →
        (prime (n : ℚ) = true ↔ ∀ j : ℕ, 2 ≤ j → j ≤ Nat.sqrt n → ¬ j ∣ n))
    ∧ (∀ n ∈ [2, 3, 5, 7, 11, 13], prime ((n : ℕ) : ℚ) = true)
    ∧ (∀ n ∈ [4, 6, 8, 9, 10, 12], prime ((n : ℕ) : ℚ) = false) := by
  refine ⟨?_, prime_natCast_eq_true_iff, ?_, ?_⟩
  · intro q hq
    simp [prime, if_pos hq]
  · intro n hn
    fin_cases hn <;>
    · rw [prime_natCast_eq_true_iff_bounded _ (by norm_num)]
      decide
  · intro n hn
    fin_cases hn <;>
    · rw [Bool.eq_false_iff, Ne, prime_natCast_eq_true_iff_bounded _ (by norm_num)]
      decide

/-- Witness for C3 at concrete inputs 1 and 13. -/
theorem claim3_witness : prime ((1 : ℕ) : ℚ) = false ∧ prime ((13 : ℕ) : ℚ) = true :=
  ⟨claim3_check_prime_spec.1 _ (by norm_num),
   claim3_check_prime_spec.2.2.1 13 (by simp)⟩

/-- Claim C10: on a non-integer rational input of at least 2 the checker
returns true, because a non-integer is never an exact multiple of an
integer trial divisor, so no remainder test fires. -/
theorem claim10_noninteger_prime_true (q : ℚ) (h2 : 2 ≤ q) (hden : q.den ≠ 1) :
    prime q = true := by
  have hq0 : (0 : ℚ) ≤ q := by linarith
  have hnum0 : 0 ≤ q.num := Rat.num_nonneg.mpr hq0
  have hfuel : ∀ j : ℕ, 2 ≤ j → (j : ℚ) * j ≤ q → j < 2 + (q.num.toNat + 1) := by
    intro j hj hj2
    have h1j : (1 : ℚ) ≤ (j : ℚ) := by exact_mod_cast Nat.one_le_of_lt hj
    have hjq : (j : ℚ) ≤ q := by nlinarith
    have hden1 : (1 : ℚ) ≤ (q.den : ℚ) := by
      exact_mod_cast Nat.pos_of_ne_zero q.den_nz
    have hqnum : q ≤ (q.num : ℚ) := by
      calc q = (q.num : ℚ) / (q.den : ℚ) := (Rat.num_div_den q).symm
        _ ≤ (q.num : ℚ) := div_le_self (by exact_mod_cast hnum0) hden1
    have hjnum : (j : ℤ) ≤ q.num := by exact_mod_cast hjq.trans hqnum
    have : j ≤ q.num.toNat := by omega
    omega
  rw [prime, if_neg (not_lt.mpr (by linarith : (2 : ℚ) ≤ q))]
  rw [primeLoop_true_iff q (q.num.toNat + 1) 2 hfuel]
  intro j hj hj2 hzero
  have hq : q = (((j : ℤ) * ⌊q / (j : ℚ)⌋ : ℤ) : ℚ) := by
    push_cast
    linarith [sub_eq_zero.mp hzero]
  have : q.den = 1 := by rw [hq]; exact Rat.den_intCast _
  exact hden this

/-- Witness for C10 at the non-integer input 5/2. -/
theorem claim10_witness :
    2 ≤ qFiveHalves ∧ qFiveHalves.den ≠ 1 ∧ prime qFiveHalves = true := by
  have hq : qFiveHalves = (5 : ℚ) / 2 := by
    rw [← Rat.num_div_den qFiveHalves]
    norm_num [qFiveHalves]
  have h2 : 2 ≤ qFiveHalves := by rw [hq]; norm_num
  have hden : qFiveHalves.den ≠ 1 := by decide
  exact ⟨h2, hden, claim10_noninteger_prime_true _ h2 hden⟩

/-! ## Offline responder claims -/

/-- The lowered char list seen by `parseCoinForPrice` is the list of the
lowered string the intent conditions test. -/
theorem containsStr_toLower (msg sub : String) :
    containsSub (msg.toList.map Char.toLower) sub.toList
      = containsStr (toLowerStr msg) sub := rfl

/-- Claim C6: intent classification is first-match-wins with the sum
intent first: whenever the sum regex matches anywhere in the message, the
offline responder returns the sum response, whatever else (prime or price
keywords included) the message contains. -/
theorem claim6_sum_intent_first (oracle : PriceOracle) (msg : String) (n1 n2 : ℚ)
    (h : parseTwoNumbersForSum msg = some (n1, n2)) :
    runOfflineDemo oracle msg = .ok (sumResponse n1 n2) := by
  simp only [runOfflineDemo, h]

/-- Witness for C6: a message matching the sum regex that also contains
"prime", "bitcoin" and "price" still gets the sum response. -/
theorem claim6_witness :
    parseTwoNumbersForSum "12 + 34 prime bitcoin price" = some (12, 34)
    ∧ runOfflineDemo oracleNone "12 + 34 prime bitcoin price" = .ok (sumResponse 12 34) :=
  ⟨rfl, claim6_sum_intent_first oracleNone _ 12 34 rfl⟩

/-- Claim C7: the offline responder maps "Calculate 1234 + 5678" to
exactly the text "Result: 1234 + 5678 = 6912". -/
theorem claim7_sum_literal (oracle : PriceOracle) :
    runOfflineDemo oracle "Calculate 1234 + 5678" = .ok (sumResponse 1234 5678)
    ∧ (sumResponse 1234 5678).text = "Result: 1234 + 5678 = 6912" := by
  constructor
  · rfl
  · show "Result: " ++ ratToString 1234 ++ " + " ++ ratToString 5678 ++ " = " ++
        ratToString (sum 1234 5678) = _
    have h : sum (1234 : ℚ) 5678 = ((6912 : ℕ) : ℚ) := by norm_num [sum]
    rw [h]
    rfl

/-- Claim C5, counterexample: the message "eth" contains "eth", matches
neither the sum nor the prime intent, and yet gets the help text (tool
call none), not a price lookup — the price branch only fires on
"price"/"crypto"/"bitcoin"/"ethereum". -/
theorem claim5_counterexample :
    containsStr (toLowerStr "eth") "eth" = true
    ∧ parseTwoNumbersForSum "eth" = none
    ∧ containsStr (toLowerStr "eth") "prime" = false
    ∧ runOfflineDemo oracleNone "eth" = .ok helpResult
    ∧ helpResult.toolCall = none :=
  ⟨rfl, rfl, rfl, rfl, rfl⟩

/-- Claim C5 as amended: when a message reaches the price branch (it
contains "price", "crypto", "bitcoin" or "ethereum" after lowering),
matches neither the sum intent nor the prime intent, contains "eth" and
contains neither "bitcoin" nor "btc", the responder performs the price
lookup with the coin resolved to ethereum. -/
theorem claim5_amended (oracle : PriceOracle) (msg : String)
    (hsum : parseTwoNumbersForSum msg = none)
    (hprime : containsStr (toLowerStr msg) "prime" = false ∨ parseNumberForPrime msg = none)
    (heth : containsStr (toLowerStr msg) "eth" = true)
    (htrig : (containsStr (toLowerStr msg) "price" || containsStr (toLowerStr msg) "crypto"
        || containsStr (toLowerStr msg) "bitcoin"
        || containsStr (toLowerStr msg) "ethereum") = true)
    (hnbitcoin : containsStr (toLowerStr msg) "bitcoin" = false)
    (hnbtc : containsStr (toLowerStr msg) "btc" = false) :
    runOfflineDemo oracle msg = priceLookup oracle "ethereum" := by
  have hcoin : parseCoinForPrice msg = some "ethereum" := by
    simp only [parseCoinForPrice, containsStr_toLower, hnbitcoin, hnbtc, heth,
      Bool.or_self, Bool.or_true, if_true, Bool.false_eq_true, if_false]
  rcases hprime with hp | hp
  · simp only [runOfflineDemo, hsum, hp, htrig, hcoin, Bool.false_eq_true, if_false, if_true]
  · by_cases hpc : containsStr (toLowerStr msg) "prime"
    · simp only [runOfflineDemo, hsum, hpc, hp, htrig, hcoin, if_true]
    · have hpc2 : containsStr (toLowerStr msg) "prime" = false := Bool.eq_false_iff.mpr hpc
      simp only [runOfflineDemo, hsum, hpc2, htrig, hcoin, Bool.false_eq_true, if_false,
        if_true]

/-- Witness for C5 (amended): "eth price" resolves to an ethereum lookup
and, with a payload carrying a usd number, renders the ethereum price. -/
theorem claim5_witness :
    runOfflineDemo oracleEth "eth price" = priceLookup oracleEth "ethereum"
    ∧ priceLookup oracleEth "ethereum" = .ok (priceResponse "ethereum" ethPayload)
    ∧ (priceResponse "ethereum" ethPayload).text = "ETHEREUM price: $4242 USD" := by
  refine ⟨claim5_amended oracleEth "eth price" rfl (Or.inl rfl) rfl rfl rfl rfl, rfl, ?_⟩
  rfl

/-! ## Transcript and orchestrator claims -/

/-- `runAgent` only ever appends to the transcript, in success and in
failure alike. -/
theorem runAgent_hist_append (g : Bool) (p : Provider) (o : PriceOracle)
    (hist : List Message) (u : String) :
    ∃ s, (runAgent g p o hist u).2 = hist ++ s := by
  cases g with
  | false => exact ⟨[], by simp [runAgent]⟩
  | true =>
    rcases h1 : p (hist ++ [mkUserMessage u]) with e | m
    · exact ⟨[mkUserMessage u], by simp [runAgent, h1]⟩
    · rcases h2 : m.tool_calls with _ | ⟨c, rest⟩
      · by_cases h3 : contentTruthy m.content
        · exact ⟨[mkUserMessage u, mkPlainAssistant m.content],
            by simp [runAgent, h1, h2, h3]⟩
        · exact ⟨[mkUserMessage u], by simp [runAgent, h1, h2, h3]⟩
      · rcases h4 : execTool o c.name c.args with e | result
        · exact ⟨[mkUserMessage u], by simp [runAgent, h1, h2, h4]⟩
        · rcases h5 : p (hist ++ [mkUserMessage u, assistantOfProvider m,
              mkToolMessage c.id (jsonStringify result)]) with e | fm
          · exact ⟨[mkUserMessage u, assistantOfProvider m,
              mkToolMessage c.id (jsonStringify result)],
              by simp [runAgent, h1, h2, h4, h5]⟩
          · by_cases h6 : contentTruthy fm.content
            · exact ⟨[mkUserMessage u, assistantOfProvider m,
                mkToolMessage c.id (jsonStringify result), mkPlainAssistant fm.content],
                by simp [runAgent, h1, h2, h4, h5, h6]⟩
            · exact ⟨[mkUserMessage u, assistantOfProvider m,
                mkToolMessage c.id (jsonStringify result)],
                by simp [runAgent, h1, h2, h4, h5, h6]⟩

/-- `chatHandler` only ever appends to the transcript. -/
theorem chatHandler_hist_append (g : Bool) (p : Provider) (o : PriceOracle)
    (hist : List Message) (b : JsValue) :
    ∃ s, (chatHandler g p o hist b).2 = hist ++ s := by
  unfold chatHandler
  by_cases hv : (!jsTruthy (jsGet (if jsTruthy b then b else .vObj .nil) "message")
      || !jsIsString (jsGet (if jsTruthy b then b else .vObj .nil) "message"))
  · exact ⟨[], by simp [hv]⟩
  · simp only [hv, Bool.false_eq_true, if_false]
    cases g with
    | false =>
      rcases hd : runOfflineDemo o (jsStrVal (jsGet (if jsTruthy b then b else .vObj .nil)
          "message")) with e | demo
      · exact ⟨[], by simp [hd]⟩
      · exact ⟨[], by simp [hd]⟩
    | true =>
      obtain ⟨s, hs⟩ := runAgent_hist_append true p o hist
        (jsStrVal (jsGet (if jsTruthy b then b else .vObj .nil) "message"))
      rcases hra : runAgent true p o hist (jsStrVal (jsGet
          (if jsTruthy b then b else .vObj .nil) "message")) with ⟨r1, h2⟩
      rw [hra] at hs
      rcases r1 with e | result
      · rcases hd : runOfflineDemo o (jsStrVal (jsGet (if jsTruthy b then b else .vObj .nil)
            "message")) with e2 | demo
        · exact ⟨s, by simp [hd, hs]⟩
        · exact ⟨s, by simp [hd, hs]⟩
      · exact ⟨s, by simp [hs]⟩

/-- A nonempty transcript's first entry survives appending. -/
theorem head?_append_of_head? (hist s : List Message) (m : Message)
    (h : hist.head? = some m) : (hist ++ s).head? = some m := by
  cases hist with
  | nil => simp at h
  | cons x t => simpa using h

/-- Any sequence of chat requests leaves the system instruction as the
first transcript entry. -/
theorem applyRequests_head (reqs : List (Bool × Provider × PriceOracle × JsValue)) :
    ∀ hist : List Message, hist.head? = some systemMessage →
      (applyRequests reqs hist).head? = some systemMessage := by
  induction reqs with
  | nil => intro hist h; simpa [applyRequests] using h
  | cons r rs ih =>
    intro hist h
    obtain ⟨s, hs⟩ := chatHandler_hist_append r.1 r.2.1 r.2.2.1 hist r.2.2.2
    have h2 : ((chatHandler r.1 r.2.1 r.2.2.1 hist r.2.2.2).2).head? = some systemMessage := by
      rw [hs]
      exact head?_append_of_head? hist s systemMessage h
    have : applyRequests (r :: rs) hist
        = applyRequests rs (chatHandler r.1 r.2.1 r.2.2.1 hist r.2.2.2).2 := rfl
    rw [this]
    exact ih _ h2

/-- Claim C2: the transcript starts as the single fixed system
instruction; the orchestrator and the chat handler only append entries
(never reorder or remove), in failure outcomes included, so across any
sequence of requests the first entry stays the system instruction; and a
mid-request failure (second round-trip failing) keeps the messages
appended before the failure. -/
theorem claim2_transcript_append_only :
    (History = [systemMessage] ∧ systemMessage.role = Role.system)
    ∧ (∀ (g : Bool) (p : Provider) (o : PriceOracle) (hist : List Message) (u : String),
        ∃ s, (runAgent g p o hist u).2 = hist ++ s)
    ∧ (∀ (g : Bool) (p : Provider) (o : PriceOracle) (hist : List Message) (b : JsValue),
        ∃ s, (chatHandler g p o hist b).2 = hist ++ s)
    ∧ (∀ reqs : List (Bool × Provider × PriceOracle × JsValue),
        (applyRequests reqs History).head? = some systemMessage)
    ∧ (∀ (p : Provider) (o : PriceOracle) (hist : List Message) (u : String)
        (m : AssistantMsg) (c : ToolCallReq) (rest : List ToolCallReq)
        (result : JsValue) (e : String),
        p (hist ++ [mkUserMessage u]) = .ok m →
        m.tool_calls = c :: rest →
        execTool o c.name c.args = .ok result →
        p (hist ++ [mkUserMessage u, assistantOfProvider m,
            mkToolMessage c.id (jsonStringify result)]) = .error e →
        runAgent true p o hist u
          = (.error e, hist ++ [mkUserMessage u, assistantOfProvider m,
              mkToolMessage c.id (jsonStringify result)])) := by
  refine ⟨⟨rfl, rfl⟩, runAgent_hist_append, chatHandler_hist_append,
    fun reqs => applyRequests_head reqs History rfl, ?_⟩
  intro p o hist u m c rest result e h1 h2 h3 h4
  simp [runAgent, h1, h2, h3, h4]

/-- Witness for C2: with a provider whose second round-trip fails, the
messages pushed before the failure (user, assistant tool request, tool
result) remain in the returned transcript. -/
theorem claim2_witness :
    runAgent true providerToolThenFail oracleBtc History "Bitcoin price"
      = (.error "second call failed",
         History ++ [mkUserMessage "Bitcoin price", assistantOfProvider toolAsstMsg,
           mkToolMessage "call_1" (jsonStringify (btcPayload ((65321 : ℕ) : ℚ)))]) :=
  claim2_transcript_append_only.2.2.2.2 providerToolThenFail oracleBtc History
    "Bitcoin price" toolAsstMsg toolReqBtc [] (btcPayload ((65321 : ℕ) : ℚ))
    "second call failed" rfl rfl rfl rfl

/-- Claim C1: when the first-round response carries tool invocation
requests, the orchestrator executes exactly the first one, appends the
provider's assistant message and then exactly one tool-role message whose
`tool_call_id` is the id of that first request, and only then issues the
second round-trip (whose response is all that remains of the run). -/
theorem claim1_first_tool_threading (provider : Provider) (oracle : PriceOracle)
    (hist : List Message) (u : String) (m : AssistantMsg) (c : ToolCallReq)
    (rest : List ToolCallReq) (result : JsValue)
    (h1 : provider (hist ++ [mkUserMessage u]) = .ok m)
    (h2 : m.tool_calls = c :: rest)
    (h3 : execTool oracle c.name c.args = .ok result) :
    (runAgent true provider oracle hist u
      = (match provider (hist ++ [mkUserMessage u, assistantOfProvider m,
            mkToolMessage c.id (jsonStringify result)]) with
         | .error e => (.error e, hist ++ [mkUserMessage u, assistantOfProvider m,
             mkToolMessage c.id (jsonStringify result)])
         | .ok fm =>
           (.ok ⟨fm.content, some ⟨c.name, c.args⟩⟩,
            if contentTruthy fm.content then
              hist ++ [mkUserMessage u, assistantOfProvider m,
                mkToolMessage c.id (jsonStringify result), mkPlainAssistant fm.content]
            else hist ++ [mkUserMessage u, assistantOfProvider m,
              mkToolMessage c.id (jsonStringify result)])))
    ∧ (∃ tail, (runAgent true provider oracle hist u).2
        = hist ++ [mkUserMessage u, assistantOfProvider m,
            mkToolMessage c.id (jsonStringify result)] ++ tail
        ∧ (∀ x ∈ tail, x.role ≠ Role.tool)
        ∧ (assistantOfProvider m).tool_calls.head? = some c
        ∧ (mkToolMessage c.id (jsonStringify result)).tool_call_id = some c.id)
    ∧ (∀ r, (runAgent true provider oracle hist u).1 = .ok r →
        r.toolCall = some ⟨c.name, c.args⟩) := by
  have hmain : runAgent true provider oracle hist u
      = (match provider (hist ++ [mkUserMessage u, assistantOfProvider m,
            mkToolMessage c.id (jsonStringify result)]) with
         | .error e => (.error e, hist ++ [mkUserMessage u, assistantOfProvider m,
             mkToolMessage c.id (jsonStringify result)])
         | .ok fm =>
           (.ok ⟨fm.content, some ⟨c.name, c.args⟩⟩,
            if contentTruthy fm.content then
              hist ++ [mkUserMessage u, assistantOfProvider m,
                mkToolMessage c.id (jsonStringify result), mkPlainAssistant fm.content]
            else hist ++ [mkUserMessage u, assistantOfProvider m,
              mkToolMessage c.id (jsonStringify result)])) := by
    rcases h5 : provider (hist ++ [mkUserMessage u, assistantOfProvider m,
        mkToolMessage c.id (jsonStringify result)]) with e | fm
    · simp [runAgent, h1, h2, h3, h5]
    · by_cases h6 : contentTruthy fm.content <;>
        simp [runAgent, h1, h2, h3, h5, h6]
  refine ⟨hmain, ?_, ?_⟩
  · rw [hmain]
    rcases h5 : provider (hist ++ [mkUserMessage u, assistantOfProvider m,
        mkToolMessage c.id (jsonStringify result)]) with e | fm
    · exact ⟨[], by simp, by simp, by simp [assistantOfProvider, h2], rfl⟩
    · by_cases h6 : contentTruthy fm.content
      · refine ⟨[mkPlainAssistant fm.content], ?_, ?_,
          by simp [assistantOfProvider, h2], rfl⟩
        · simp [h6]
        · intro x hx
          simp only [List.mem_singleton] at hx
          subst hx
          simp [mkPlainAssistant]
      · exact ⟨[], by simp [h6], by simp, by simp [assistantOfProvider, h2], rfl⟩
  · intro r hr
    rw [hmain] at hr
    rcases h5 : provider (hist ++ [mkUserMessage u, assistantOfProvider m,
        mkToolMessage c.id (jsonStringify result)]) with e | fm
    · rw [h5] at hr
      simp at hr
    · rw [h5] at hr
      simp only [Except.ok.injEq] at hr
      rw [← hr]

/-- Witness for C1: a provider requesting the crypto-price tool first has
exactly the user, assistant-request, tool-result and final-answer messages
appended, with the tool result executed from the first (only) request. -/
theorem claim1_witness :
    (runAgent true providerTool oracleBtc History "Bitcoin price").1
      = .ok ⟨some "Bitcoin is at $65321.", some ⟨"get_crypto_price", cryptoArgs⟩⟩
    ∧ (runAgent true providerTool oracleBtc History "Bitcoin price").2
      = History ++ [mkUserMessage "Bitcoin price", assistantOfProvider toolAsstMsg,
          mkToolMessage "call_1" (jsonStringify (btcPayload ((65321 : ℕ) : ℚ))),
          mkPlainAssistant (some "Bitcoin is at $65321.")] := by
  have h := claim1_first_tool_threading providerTool oracleBtc History "Bitcoin price"
    toolAsstMsg toolReqBtc [] (btcPayload ((65321 : ℕ) : ℚ)) rfl rfl rfl
  constructor
  · rw [h.1]
    rfl
  · rw [h.1]
    rfl

/-! ## Chat handler claims -/

/-- A valid-message request in offline mode evaluates to the offline
responder's outcome: 200 on success, 500 on a thrown error. -/
theorem chatHandler_offline_eval (provider : Provider) (oracle : PriceOracle)
    (hist : List Message) (msg : String) (body : JsValue)
    (hbody : jsGet (if jsTruthy body then body else .vObj .nil) "message" = .vStr msg)
    (hne : (msg == "") = false) :
    chatHandler false provider oracle hist body
      = (match runOfflineDemo oracle msg with
         | .ok demo =>
           ({ status := 200, response := some demo.text, toolCall := demo.toolCall }, hist)
         | .error _ => ({ status := 500, error := some "Offline demo failed." }, hist)) := by
  simp only [chatHandler, hbody]
  simp only [jsTruthy, jsIsString, jsStrVal, hne, Bool.not_false, Bool.not_true,
    Bool.or_false, Bool.false_eq_true, if_false]

/-- Claim C4, counterexample: with no provider key and the price fetch
failing, `POST /chat {"message": "Bitcoin price"}` yields status 500, not
a 200 — the thrown fetch error propagates out of the offline responder
and the handler converts it into "Offline demo failed.". -/
theorem claim4_counterexample :
    chatHandler false providerFail oracleNone History (mkBody "Bitcoin price")
      = ({ status := 500, error := some "Offline demo failed." }, History) := rfl

/-- Claim C4 as amended: in offline mode, `POST /chat` with message
"Bitcoin price" returns 200 with "BITCOIN price: $<usd> USD" when the
fetch succeeds and the payload carries a usd number; 200 with the
missing-usd message when the fetch succeeds without a usd entry for
bitcoin; and 500 "Offline demo failed." when the fetch itself fails. -/
theorem claim4_amended (provider : Provider) (oracle : PriceOracle) (hist : List Message) :
    (∀ v p, oracle "bitcoin" = some v →
        jsGet (jsGet v "bitcoin") "usd" = .vNum p →
        chatHandler false provider oracle hist (mkBody "Bitcoin price")
          = ({ status := 200,
               response := some ("BITCOIN price: $" ++ ratToString p ++ " USD"),
               toolCall := some ⟨"get_crypto_price",
                 .vObj (.cons "coin" (.vStr "bitcoin") .nil)⟩ }, hist))
    ∧ (∀ v, oracle "bitcoin" = some v →
        jsIsNullish (jsGet (jsGet v "bitcoin") "usd") = true →
        chatHandler false provider oracle hist (mkBody "Bitcoin price")
          = ({ status := 200,
               response := some
                 "I couldn\x27t find a USD price for \"bitcoin\". Try: bitcoin, ethereum.",
               toolCall := some ⟨"get_crypto_price",
                 .vObj (.cons "coin" (.vStr "bitcoin") .nil)⟩ }, hist))
    ∧ (oracle "bitcoin" = none →
        chatHandler false provider oracle hist (mkBody "Bitcoin price")
          = ({ status := 500, error := some "Offline demo failed." }, hist)) := by
  have hM : runOfflineDemo oracle "Bitcoin price" = priceLookup oracle "bitcoin" := rfl
  have hch := chatHandler_offline_eval provider oracle hist "Bitcoin price"
    (mkBody "Bitcoin price") rfl rfl
  rw [hM] at hch
  refine ⟨?_, ?_, ?_⟩
  · intro v p h1 h2
    rw [hch]
    simp only [priceLookup, getcryptoprice, h1]
    have htext : (priceResponse "bitcoin" v).text
        = "BITCOIN price: $" ++ ratToString p ++ " USD" := by
      simp only [priceResponse, h2, jsIsNullish, jsToDisplayString]
      rfl
    have htc : (priceResponse "bitcoin" v).toolCall
        = some ⟨"get_crypto_price", .vObj (.cons "coin" (.vStr "bitcoin") .nil)⟩ := rfl
    rw [htext, htc]
  · intro v h1 h2
    rw [hch]
    simp only [priceLookup, getcryptoprice, h1]
    have htext : (priceResponse "bitcoin" v).text
        = "I couldn\x27t find a USD price for \"bitcoin\". Try: bitcoin, ethereum." := by
      simp only [priceResponse, h2, if_true]
      rfl
    have htc : (priceResponse "bitcoin" v).toolCall
        = some ⟨"get_crypto_price", .vObj (.cons "coin" (.vStr "bitcoin") .nil)⟩ := rfl
    rw [htext, htc]
  · intro h1
    rw [hch]
    simp only [priceLookup, getcryptoprice, h1]

/-- Witness for C4 (amended): with a payload carrying usd 65321 the
handler returns 200 and the concrete price line. -/
theorem claim4_witness :
    chatHandler false providerFail oracleBtc History (mkBody "Bitcoin price")
      = ({ status := 200,
           response := some ("BITCOIN price: $" ++ ratToString ((65321 : ℕ) : ℚ) ++ " USD"),
           toolCall := some ⟨"get_crypto_price",
             .vObj (.cons "coin" (.vStr "bitcoin") .nil)⟩ }, History)
    ∧ ratToString ((65321 : ℕ) : ℚ) = "65321" :=
  ⟨(claim4_amended providerFail oracleBtc History).1 _ _ rfl rfl, rfl⟩

/-- Claim C8, counterexample: when the remote call fails AND the offline
responder's own price fetch fails (message "Bitcoin price"), the handler
returns 500 with the remote error's message — no annotated offline text
exists in that case, so the claim does not hold for every message. -/
theorem claim8_counterexample :
    chatHandler true providerFail oracleNone History (mkBody "Bitcoin price")
      = ({ status := 500, error := some "boom" },
         History ++ [mkUserMessage "Bitcoin price"]) := rfl

/-- Claim C8 as amended: on remote failure the orchestrator performs no
retry (the outcome of a failing first round-trip is that failure, with
only the user message appended) and surfaces the failure; the handler
then falls back to the offline responder, returning its text plus the
fallback annotation when it succeeds, and 500 only when the offline
responder itself throws. -/
theorem claim8_amended (provider : Provider) (oracle : PriceOracle)
    (hist : List Message) (body : JsValue) (msg e : String)
    (hbody : jsGet (if jsTruthy body then body else .vObj .nil) "message" = .vStr msg)
    (hne : (msg == "") = false)
    (hfail : (runAgent true provider oracle hist msg).1 = .error e) :
    (∀ e1, provider (hist ++ [mkUserMessage msg]) = .error e1 →
      runAgent true provider oracle hist msg = (.error e1, hist ++ [mkUserMessage msg]))
    ∧ chatHandler true provider oracle hist body
        = (match runOfflineDemo oracle msg with
           | .ok demo =>
             ({ status := 200, response := some (demo.text ++ fallbackNote),
                toolCall := demo.toolCall }, (runAgent true provider oracle hist msg).2)
           | .error _ =>
             ({ status := 500, error := some (safeErrMessage e) },
              (runAgent true provider oracle hist msg).2)) := by
  constructor
  · intro e1 h1
    simp [runAgent, h1]
  · simp only [chatHandler, hbody]
    simp only [jsTruthy, jsIsString, jsStrVal, hne, Bool.not_false, Bool.not_true,
      Bool.or_false, Bool.false_eq_true, if_false, if_true]
    rcases hra : runAgent true provider oracle hist msg with ⟨r1, h2⟩
    rw [hra] at hfail
    simp only at hfail
    subst hfail
    rcases hd : runOfflineDemo oracle msg with e2 | demo
    · simp
    · simp

/-- Witness for C8 (amended): remote failure on "Is 7 prime?" falls back
to the offline prime answer with the fallback annotation appended, the
transcript keeping the user message pushed before the failure. -/
theorem claim8_witness :
    chatHandler true providerFail oracleNone History (mkBody "Is 7 prime?")
      = ({ status := 200,
           response := some ("7 is a prime number." ++ fallbackNote),
           toolCall := some ⟨"check_prime_number",
             .vObj (.cons "number" (.vNum ((7 : ℕ) : ℚ)) .nil)⟩ },
         History ++ [mkUserMessage "Is 7 prime?"]) := by
  have h := (claim8_amended providerFail oracleNone History (mkBody "Is 7 prime?")
    "Is 7 prime?" "boom" rfl rfl rfl).2
  rw [h]
  have hdemo : runOfflineDemo oracleNone "Is 7 prime?"
      = .ok (primeResponse ((7 : ℕ) : ℚ)) := rfl
  rw [hdemo]
  have hp : prime ((7 : ℕ) : ℚ) = true :=
    (prime_natCast_eq_true_iff_bounded 7 (by norm_num)).mpr (by decide)
  have hrun : (runAgent true providerFail oracleNone History "Is 7 prime?").2
      = History ++ [mkUserMessage "Is 7 prime?"] := rfl
  rw [hrun]
  simp only [primeResponse, hp, if_true]
  rfl

/-- Claim C9: on both POST routes, a request whose message field is
missing (the empty body included) or not a string is answered with status
400 and an error object, the transcript left unchanged. -/
theorem claim9_invalid_message_400 (g : Bool) (provider : Provider)
    (oracle : PriceOracle) (hist : List Message) (path : String) (body : JsValue)
    (hpath : path = "/chat" ∨ path = "/api/chat")
    (hbad : jsGet (if jsTruthy body then body else .vObj .nil) "message" = .vUndefined
      ∨ jsIsString (jsGet (if jsTruthy body then body else .vObj .nil) "message") = false) :
    handlePost path g provider oracle hist body
      = some (({ status := 400,
                 error := some "Missing \x27message\x27 field in request body." } :
            HttpReply), hist) := by
  have hroute : path = "/chat" ∨ path = "/api/chat" := hpath
  have hcond : (!jsTruthy (jsGet (if jsTruthy body then body else .vObj .nil) "message")
      || !jsIsString (jsGet (if jsTruthy body then body else .vObj .nil) "message"))
      = true := by
    rcases hbad with h | h
    · rw [h]
      rfl
    · rw [h]
      simp
  simp only [handlePost, chatHandler, hcond, if_true]
  rcases hroute with h | h <;> subst h <;> rfl

/-- Witness for C9: the empty body `{}` on `/chat` gets a 400 with the
transcript untouched. -/
theorem claim9_witness :
    handlePost "/chat" false providerFail oracleNone History (.vObj .nil)
      = some (({ status := 400,
                 error := some "Missing \x27message\x27 field in request body." } :
            HttpReply), History) :=
  claim9_invalid_message_400 false providerFail oracleNone History "/chat" (.vObj .nil)
    (Or.inl rfl) (Or.inl rfl)

end BtcAgent
